import Mathlib

/-!
Verification development for `Stocks_Chart.py`, a Streamlit dashboard that
fetches weekly OHLCV series per ticker, enriches them with technical
indicators, charts them, and exports the last enriched row per ticker.

The embedding is column-oriented: a pandas `DataFrame` becomes a `Date`
index (dates as rationals) plus a list of named columns whose cells are
`Option ℚ` (`none` models a missing value, pandas `NaN`).  Floating-point
arithmetic is modelled by exact rational arithmetic; the square root used
by the Bollinger standard deviation is kept as an explicit function
parameter `sq`, since no stated property depends on its values.

The indicator formulas themselves live in the third-party `ta` library,
whose code is not part of this repository; those definitions are modelled
from the specification (see the individual doc comments).  Everything the
repository's own code does — the short-window guard, in-place column
assignment, the fetch wrapper, ticker preprocessing, the aggregation loop
and export — is translated directly from `Stocks_Chart.py`.
-/

namespace StocksChart

/-- A data-frame cell: `none` models a missing value (pandas `NaN`). -/
abbrev Cell := Option ℚ

/-- Column-oriented model of the pandas frames the program builds: a `Date`
index plus named value columns, in column order. -/
structure DataFrame where
  index : List ℚ
  cols : List (String × List Cell)
deriving DecidableEq, Repr

/-- Python `len(data)`: the number of rows of a frame. -/
def DataFrame.nrows (d : DataFrame) : ℕ := d.index.length

/-- Column lookup by name in an association list of columns. -/
def colAux : List (String × List Cell) → String → Option (List Cell)
  | [], _ => none
  | p :: ps, n => if p.1 = n then some p.2 else colAux ps n

/-- Column lookup: `data[name]` when the column exists. -/
def DataFrame.col? (d : DataFrame) (n : String) : Option (List Cell) :=
  colAux d.cols n

/-- Helper for `setCol`: replace the named column in place, or append it
at the end when absent—the behavior of a pandas column assignment. -/
def setColAux : List (String × List Cell) → String → List Cell →
    List (String × List Cell)
  | [], n, v => [(n, v)]
  | p :: ps, n, v => if p.1 = n then (n, v) :: ps else p :: setColAux ps n v

/-- Column assignment `data[name] = v`. -/
def DataFrame.setCol (d : DataFrame) (n : String) (v : List Cell) : DataFrame :=
  ⟨d.index, setColAux d.cols n v⟩

/-- Numeric view of a column: cells with any missing entries read as `0`.
Frames produced by the fetcher carry fully populated price columns, so the
default is never load-bearing in the stated properties. -/
def DataFrame.numCol (d : DataFrame) (n : String) : List ℚ :=
  ((d.col? n).getD []).map (fun c => c.getD 0)

/-- The value of cell `i` of column `n`, `none` when the column is absent,
the row does not exist, or the cell is missing. -/
def DataFrame.cellVal (d : DataFrame) (n : String) (i : ℕ) : Cell :=
  ((d.col? n).bind (fun col => col[i]?)).bind id

/-- Whether cell `i` of column `n` holds a numeric value. -/
def DataFrame.cellIsNum (d : DataFrame) (n : String) (i : ℕ) : Bool :=
  (d.cellVal n i).isSome

/-! ### Indicator building blocks

`maskedCol n b f` is a column of length `n` whose first `b` rows carry the
missing-value marker and whose row `i ≥ b` holds `f i`: the shape shared by
every derived indicator column (a trailing computation masked during its
burn-in). -/

/-- A derived column of length `n` with burn-in `b` and value function `f`. -/
def maskedCol (n b : ℕ) (f : ℕ → ℚ) : List Cell :=
  (List.range n).map (fun i => if b ≤ i then some (f i) else none)

/-- The trailing window of width `w` ending at row `i` (rows
`i+1-w .. i`). -/
def windowAt (w i : ℕ) (xs : List ℚ) : List ℚ :=
  (xs.take (i + 1)).drop (i + 1 - w)

/-- Simple moving average over the trailing `w`-window ending at row `i`,
the value of pandas `rolling(window=w).mean()` at a fully populated row. -/
def smaVal (w : ℕ) (xs : List ℚ) (i : ℕ) : ℚ :=
  (windowAt w i xs).sum / w

/-- Modelled from the spec: population variance over the trailing
`w`-window (the `ta` Bollinger code, absent from this repository, uses the
20-period standard deviation; the spec fixes the 20-period window and the
2-sigma multiplier, and the choice of variance convention is not load
bearing for any stated property). -/
def varVal (w : ℕ) (xs : List ℚ) (i : ℕ) : ℚ :=
  ((windowAt w i xs).map (fun x => (x - smaVal w xs i) ^ 2)).sum / w

/-- Modelled from the spec: Bollinger upper band, 20-period SMA plus two
standard deviations (`sq` supplies the square root). -/
def bbUpperVal (sq : ℚ → ℚ) (xs : List ℚ) (i : ℕ) : ℚ :=
  smaVal 20 xs i + 2 * sq (varVal 20 xs i)

/-- Modelled from the spec: Bollinger lower band, 20-period SMA minus two
standard deviations. -/
def bbLowerVal (sq : ℚ → ℚ) (xs : List ℚ) (i : ℕ) : ℚ :=
  smaVal 20 xs i - 2 * sq (varVal 20 xs i)

/-- Modelled from the spec: normalized Bollinger width,
`(upper - lower) / middle`, the middle band being the 20-period SMA. -/
def bbWidthVal (sq : ℚ → ℚ) (xs : List ℚ) (i : ℕ) : ℚ :=
  (bbUpperVal sq xs i - bbLowerVal sq xs i) / smaVal 20 xs i

/-- First differences: `diffs xs` has length `xs.length - 1`, and its
entry `j` is `xs[j+1] - xs[j]`. -/
def diffs (xs : List ℚ) : List ℚ :=
  List.zipWith (fun a b => a - b) (xs.drop 1) xs

/-- Positive moves of the close series. -/
def gains (xs : List ℚ) : List ℚ := (diffs xs).map (fun d => max d 0)

/-- Negative moves of the close series, as magnitudes. -/
def losses (xs : List ℚ) : List ℚ := (diffs xs).map (fun d => max (-d) 0)

/-- Modelled from the spec: Wilder smoothing of `xs` with window `w`.
Position `k = 0` is the plain average of the first full window
`xs[0..w-1]`; afterwards each value folds in one new observation with
weight `1/w`. -/
def wilderAt (w : ℕ) (xs : List ℚ) : ℕ → ℚ
  | 0 => (xs.take w).sum / w
  | k + 1 => (wilderAt w xs k * ((w : ℚ) - 1) + xs.getD (w + k) 0) / w

/-- Modelled from the spec: RSI-14 by Wilder smoothing of average gains
and losses, the row `i` value for `i ≥ 14` (the 14-diff window first fills
at row 14).  A zero average loss yields the conventional value 100. -/
def rsiVal (xs : List ℚ) (i : ℕ) : ℚ :=
  let up := wilderAt 14 (gains xs) (i - 14)
  let dn := wilderAt 14 (losses xs) (i - 14)
  if dn = 0 then 100 else 100 - 100 / (1 + up / dn)

/-- Exponential moving average, recursively weighted trailing average
seeded with the first observation: the value at row `k`. -/
def emaAt (a : ℚ) (xs : List ℚ) : ℕ → ℚ
  | 0 => xs.getD 0 0
  | k + 1 => emaAt a xs k + a * (xs.getD (k + 1) 0 - emaAt a xs k)

/-- Modelled from the spec: MACD line, EMA-12 minus EMA-26 of the close
(smoothing factors `2/(span+1)`); masked until the slow 26-window is full
(burn-in 25 rows). -/
def macdLineVal (xs : List ℚ) (i : ℕ) : ℚ :=
  emaAt (2 / 13) xs i - emaAt (2 / 27) xs i

/-- The defined part of the MACD line, starting at row 25, as the input
series of the signal smoothing. -/
def macdSeq (xs : List ℚ) : List ℚ :=
  ((List.range xs.length).map (macdLineVal xs)).drop 25

/-- Modelled from the spec: MACD signal, EMA-9 of the MACD line.  The
line is defined from row 25, so the signal's 9-window first fills at row
33; row `i ≥ 33` holds the EMA-9 value at position `i - 25` of the defined
line. -/
def macdSignalVal (xs : List ℚ) (i : ℕ) : ℚ :=
  emaAt (2 / 10) (macdSeq xs) (i - 25)

/-- Modelled from the spec: MACD histogram, line minus signal. -/
def macdHistVal (xs : List ℚ) (i : ℕ) : ℚ :=
  macdLineVal xs i - macdSignalVal xs i

/-- Modelled from the spec: positive directional movement at step `j`
(comparing rows `j+1` and `j`). -/
def plusDMList (high low : List ℚ) : List ℚ :=
  (List.range (high.length - 1)).map (fun j =>
    let up := high.getD (j + 1) 0 - high.getD j 0
    let dn := low.getD j 0 - low.getD (j + 1) 0
    if dn < up ∧ 0 < up then up else 0)

/-- Modelled from the spec: negative directional movement at step `j`. -/
def minusDMList (high low : List ℚ) : List ℚ :=
  (List.range (high.length - 1)).map (fun j =>
    let up := high.getD (j + 1) 0 - high.getD j 0
    let dn := low.getD j 0 - low.getD (j + 1) 0
    if up < dn ∧ 0 < dn then dn else 0)

/-- Modelled from the spec: true range at step `j` (largest of the bar
range and the gaps to the previous close). -/
def trList (high low close : List ℚ) : List ℚ :=
  (List.range (high.length - 1)).map (fun j =>
    let h := high.getD (j + 1) 0
    let l := low.getD (j + 1) 0
    let c := close.getD j 0
    max (h - l) (max |h - c| |l - c|))

/-- Modelled from the spec: positive directional index at row `i ≥ 14`,
100 times the ratio of smoothed +DM to smoothed true range (0 when the
smoothed true range vanishes, which requires a degenerate series). -/
def diPlusVal (high low close : List ℚ) (i : ℕ) : ℚ :=
  let tr := wilderAt 14 (trList high low close) (i - 14)
  if tr = 0 then 0 else 100 * wilderAt 14 (plusDMList high low) (i - 14) / tr

/-- Modelled from the spec: negative directional index at row `i ≥ 14`. -/
def diMinusVal (high low close : List ℚ) (i : ℕ) : ℚ :=
  let tr := wilderAt 14 (trList high low close) (i - 14)
  if tr = 0 then 0 else 100 * wilderAt 14 (minusDMList high low) (i - 14) / tr

/-- Modelled from the spec: directional movement index at row `i ≥ 14`
(0 when both directional indices vanish). -/
def dxVal (high low close : List ℚ) (i : ℕ) : ℚ :=
  let p := diPlusVal high low close i
  let q := diMinusVal high low close i
  if p + q = 0 then 0 else 100 * |p - q| / (p + q)

/-- The directional movement index as a series: position `k` is row
`k + 14`. -/
def dxList (high low close : List ℚ) : List ℚ :=
  (List.range (close.length - 14)).map (fun k => dxVal high low close (k + 14))

/-- Modelled from the spec: ADX-14, the Wilder smoothing of the
directional movement index.  DX is defined from row 14, so its 14-window
first fills at row 27; row `i ≥ 27` holds position `i - 27` of the
smoothed series. -/
def adxVal (high low close : List ℚ) (i : ℕ) : ℚ :=
  wilderAt 14 (dxList high low close) (i - 27)

/-- The nine derived column names `calculate_indicators` assigns, in
assignment order. -/
def derivedNames : List String :=
  ["MA_20", "BB_Upper", "BB_Lower", "BB_Width", "RSI",
   "MACD_Line", "MACD_Signal", "MACD_Histogram", "ADX"]

/-- `calculate_indicators(data)` of `Stocks_Chart.py`: below 20 rows the
frame is returned untouched; otherwise the nine derived columns are
assigned, each a trailing computation masked during its burn-in.  `MA_20`
is the pandas `rolling(window=20).mean()` of the close (19-row burn-in);
the remaining eight columns delegate to the `ta` library and are modelled
from the spec with the window convention stated on each value function. -/
def calculate_indicators (sq : ℚ → ℚ) (d : DataFrame) : DataFrame :=
  if d.nrows < 20 then d
  else
    let n := d.nrows
    let close := d.numCol "Close"
    let high := d.numCol "High"
    let low := d.numCol "Low"
    ((((((((d.setCol "MA_20" (maskedCol n 19 (smaVal 20 close))).setCol
      "BB_Upper" (maskedCol n 19 (bbUpperVal sq close))).setCol
      "BB_Lower" (maskedCol n 19 (bbLowerVal sq close))).setCol
      "BB_Width" (maskedCol n 19 (bbWidthVal sq close))).setCol
      "RSI" (maskedCol n 14 (rsiVal close))).setCol
      "MACD_Line" (maskedCol n 25 (macdLineVal close))).setCol
      "MACD_Signal" (maskedCol n 33 (macdSignalVal close))).setCol
      "MACD_Histogram" (maskedCol n 33 (macdHistVal close))).setCol
      "ADX" (maskedCol n 27 (adxVal high low close))

/-- The frame the caller's argument designates after
`calculate_indicators(data)` returns.  In the source every derived column
is written with an in-place assignment `data[...] = ...` on the argument
itself and the argument is returned, so after the call the caller's
object and the returned frame are one and the same object. -/
def calculate_indicators_argAfter (sq : ℚ → ℚ) (d : DataFrame) : DataFrame :=
  calculate_indicators sq d

/-! ### The fetch wrapper -/

/-- Outcome of one `yf.download` call for one key: either a raised error
(any exception, carrying its text) or a returned frame. -/
inductive FetchOutcome where
  | err (msg : String)
  | ok (d : DataFrame)
deriving DecidableEq

/-- The external market-data source, an oracle from the queried key to
the outcome of that download. -/
abbrev Source := String → FetchOutcome

/-- The empty frame `pd.DataFrame()` returned on the error path. -/
def emptyFrame : DataFrame := ⟨[], []⟩

/-- The five value columns the fetcher selects, in order (the sixth,
`Date`, becomes the index and is the index throughout this model). -/
def priceColNames : List String := ["Open", "High", "Low", "Close", "Volume"]

/-- The reshaping step of `fetch_stock_data`: reset the index, flatten
column headers, select the six ordered columns, set `Date` back as the
index.  In the model the index carries the dates throughout, so the step
keeps the index and selects the five value columns in order; frames the
source actually returns carry all five. -/
def reshape (d : DataFrame) : DataFrame :=
  ⟨d.index, priceColNames.filterMap (fun n => (d.col? n).map (fun c => (n, c)))⟩

/-- The warning text of the except-branch of `fetch_stock_data`, with the
queried (suffixed) key interpolated. -/
def fetchErrMsg (key e : String) : String :=
  "Error fetching data for " ++ key ++ ": " ++ e

/-- `fetch_stock_data(ticker, start, end)`: append the fixed `.NS`
suffix, download, and on success with at least one row reshape and pipe
through the enricher; a download of no rows is returned as-is, and a
raised error yields a warning and the empty frame.  The result pairs the
returned frame with the warnings surfaced by the call. -/
def fetch_stock_data (sq : ℚ → ℚ) (source : Source) (ticker : String) :
    DataFrame × List String :=
  let key := ticker ++ ".NS"
  match source key with
  | .err e => (emptyFrame, [fetchErrMsg key e])
  | .ok data =>
      if data.nrows = 0 then (data, [])
      else (calculate_indicators sq (reshape data), [])

/-! ### The orchestrator -/

/-- One aggregated result row: `stock_data.iloc[-1]` with the observation
date and the un-suffixed ticker symbol stamped on. -/
structure AggRow where
  ticker : String
  date : ℚ
  cells : List (String × Cell)
deriving DecidableEq

/-- The last row of a frame, stamped with ticker `t` and the last index
entry, as lines 138-140 of the source build it. -/
def mkAggRow (t : String) (d : DataFrame) : AggRow :=
  ⟨t, d.index.getLastD 0, d.cols.map (fun p => (p.1, p.2.getLastD none))⟩

/-- The observable state the per-ticker loop accumulates: warnings and
info lines shown, keys queried against the source, tickers charted (in
render order), and the aggregation list. -/
structure RunState where
  warnings : List String
  infos : List String
  queries : List String
  charts : List String
  aggRows : List AggRow
deriving DecidableEq

/-- The state at the start of the loop. -/
def initState : RunState := ⟨[], [], [], [], []⟩

/-- One iteration of the per-ticker loop of `main`: announce the ticker,
fetch (recording the queried key and any fetch warning); on a non-empty
result append the stamped last row and chart the ticker, otherwise warn
that no data was found. -/
def processTicker (sq : ℚ → ℚ) (source : Source) (st : RunState)
    (t : String) : RunState :=
  let res := fetch_stock_data sq source t
  let st1 : RunState :=
    { st with infos := st.infos ++ ["Processing " ++ t ++ "..."],
              queries := st.queries ++ [t ++ ".NS"],
              warnings := st.warnings ++ res.2 }
  if res.1.nrows = 0 then
    { st1 with warnings := st1.warnings ++ ["No data found for " ++ t ++ "."] }
  else
    { st1 with aggRows := st1.aggRows ++ [mkAggRow t res.1],
               charts := st1.charts ++ [t] }

/-- Helper for `processedTickers`: keep each entry not seen before. -/
def uniqueFirstAux (seen : List String) : List String → List String
  | [] => []
  | x :: xs =>
      if x ∈ seen then uniqueFirstAux seen xs
      else x :: uniqueFirstAux (x :: seen) xs

/-- Line 126 of the source, `tickers_df['Ticker'].dropna().unique()`:
drop the missing entries (an empty CSV cell is parsed as a missing
value), then deduplicate keeping first occurrences in order.  The raw
column is a list of optional strings, `none` being a missing cell. -/
def processedTickers (col : List (Option String)) : List String :=
  uniqueFirstAux [] (col.filterMap id)

/-- The observable outcome of one run of `main`: fatal errors shown, the
loop state, and the exported table when one is offered for download. -/
structure RunOutput where
  fatalErrors : List String
  state : RunState
  exported : Option (List AggRow)
deriving DecidableEq

/-- `main()` after the upload, given the columns of the uploaded CSV and
its `Ticker` column (when present): a missing `Ticker` column is a fatal
error and nothing else runs; otherwise the preprocessed tickers are
folded through the loop and a non-empty aggregation list is offered for
download as the single-sheet export. -/
def main (sq : ℚ → ℚ) (source : Source) (csvCols : List String)
    (tickerCol : List (Option String)) : RunOutput :=
  if "Ticker" ∈ csvCols then
    let st := (processedTickers tickerCol).foldl (processTicker sq source) initState
    ⟨[], st, if st.aggRows = [] then none else some st.aggRows⟩
  else
    ⟨["The uploaded CSV must contain a column named Ticker."], initState, none⟩

/-! ### Per-ticker contributions

The loop state is append-only, so each field of the final state is the
initial field followed by the concatenation of per-ticker contributions;
the following definitions name those contributions. -/

/-- Concatenation of per-element contributions. -/
def collect {α : Type} (f : String → List α) : List String → List α
  | [] => []
  | t :: ts => f t ++ collect f ts

/-- The aggregation rows ticker `t` contributes to a run. -/
def aggOf (sq : ℚ → ℚ) (source : Source) (t : String) : List AggRow :=
  let res := fetch_stock_data sq source t
  if res.1.nrows = 0 then [] else [mkAggRow t res.1]

/-- The chart renders ticker `t` contributes. -/
def chartsOf (sq : ℚ → ℚ) (source : Source) (t : String) : List String :=
  if (fetch_stock_data sq source t).1.nrows = 0 then [] else [t]

/-- The warnings ticker `t` contributes. -/
def warningsOf (sq : ℚ → ℚ) (source : Source) (t : String) : List String :=
  let res := fetch_stock_data sq source t
  res.2 ++ (if res.1.nrows = 0 then ["No data found for " ++ t ++ "."] else [])

/-- The info lines ticker `t` contributes. -/
def infosOf (t : String) : List String := ["Processing " ++ t ++ "..."]

/-! ### Concrete inputs used by witnesses and counterexamples -/

/-- A concrete stand-in for the floating-point square root, used only to
instantiate the `sq` parameter at concrete inputs (no stated property
depends on its values). -/
def sqrtQ0 : ℚ → ℚ := fun q => ((Nat.sqrt q.num.toNat : ℕ) : ℚ)

/-- A fully populated constant column. -/
def constCol (n : ℕ) (q : ℚ) : List Cell := List.replicate n (some q)

/-- A concrete 20-row price series with constant prices. -/
def d20 : DataFrame :=
  ⟨(List.range 20).map (fun i => (i : ℚ)),
   [("Open", constCol 20 1), ("High", constCol 20 1), ("Low", constCol 20 1),
    ("Close", constCol 20 1), ("Volume", constCol 20 0)]⟩

/-- A concrete 3-row price series. -/
def d3 : DataFrame :=
  ⟨[0, 1, 2],
   [("Open", constCol 3 1), ("High", constCol 3 1), ("Low", constCol 3 1),
    ("Close", constCol 3 1), ("Volume", constCol 3 0)]⟩

/-- A concrete 1-row price series. -/
def dOne : DataFrame :=
  ⟨[5], [("Open", [some 2]), ("High", [some 3]), ("Low", [some 1]),
         ("Close", [some 2]), ("Volume", [some 7])]⟩

/-- A concrete source that answers the key `AAA.NS` with `dOne` and
raises on every other key. -/
def srcA : Source :=
  fun k => if k = "AAA.NS" then FetchOutcome.ok dOne else FetchOutcome.err "boom"

/-- A concrete source that raises on every key. -/
def srcB : Source := fun _ => FetchOutcome.err "boom"

/-- The download for ticker `t` fails: the request raises, or it returns
a frame with no rows. -/
def fetchFails (source : Source) (t : String) : Prop :=
  match source (t ++ ".NS") with
  | .err _ => True
  | .ok d => d.nrows = 0

/-- The index of the first occurrence of `t` in a list (the list length
when absent). -/
def firstIdx (t : String) : List String → ℕ
  | [] => 0
  | x :: xs => if x = t then 0 else firstIdx t xs + 1

/-- C1, as stated by the spec, with the derived columns quantified over
the nine names: on every at-least-20-row series every derived column
would be missing in exactly the first 19 rows and numeric from row 20
on. -/
def c1Statement : Prop :=
  ∀ (sq : ℚ → ℚ) (d : DataFrame), 20 ≤ d.nrows →
    ∀ nm ∈ derivedNames, ∀ i, i < d.nrows →
      (calculate_indicators sq d).cellIsNum nm i = decide (19 ≤ i)

/-- C3, as stated: the enricher would be side-effect-free, leaving the
caller's argument object with its input columns and values after every
call. -/
def c3Statement : Prop :=
  ∀ (sq : ℚ → ℚ) (d : DataFrame), calculate_indicators_argAfter sq d = d

/-! ### Column-assignment lemmas -/

/-- Looking up the column just assigned yields the assigned values. -/
theorem colAux_setColAux_self (cs : List (String × List Cell)) (n : String)
    (v : List Cell) : colAux (setColAux cs n v) n = some v := by
  induction cs with
  | nil => simp [setColAux, colAux]
  | cons p ps ih =>
      by_cases h : p.1 = n <;> simp [setColAux, colAux, h, ih]

/-- Assigning one column leaves every other column untouched. -/
theorem colAux_setColAux_ne (cs : List (String × List Cell))
    (v : List Cell) {n m : String} (h : n ≠ m) :
    colAux (setColAux cs n v) m = colAux cs m := by
  induction cs with
  | nil => simp [setColAux, colAux, h]
  | cons p ps ih =>
      by_cases hp : p.1 = n
      · subst hp; simp [setColAux, colAux, h]
      · by_cases hm : p.1 = m <;>
          simp [setColAux, colAux, hp, hm, Ne.symm h, ih]

/-- Frame-level form of `colAux_setColAux_self`. -/
theorem col?_setCol_self (d : DataFrame) (n : String) (v : List Cell) :
    (d.setCol n v).col? n = some v :=
  colAux_setColAux_self d.cols n v

/-- Frame-level form of `colAux_setColAux_ne`. -/
theorem col?_setCol_ne (d : DataFrame) (v : List Cell) {n m : String}
    (h : n ≠ m) : (d.setCol n v).col? m = d.col? m :=
  colAux_setColAux_ne d.cols v h

/-- Column assignment does not touch the index. -/
theorem index_setCol (d : DataFrame) (n : String) (v : List Cell) :
    (d.setCol n v).index = d.index := rfl

/-- Column assignment does not change the number of rows. -/
theorem nrows_setCol (d : DataFrame) (n : String) (v : List Cell) :
    (d.setCol n v).nrows = d.nrows := rfl

/-! ### Masked-column lemmas -/

/-- A derived column has exactly `n` rows. -/
theorem maskedCol_length (n b : ℕ) (f : ℕ → ℚ) :
    (maskedCol n b f).length = n := by
  simp [maskedCol]

/-- The cell of a derived column at a row that exists. -/
theorem maskedCol_getElem (n b : ℕ) (f : ℕ → ℚ) {i : ℕ} (h : i < n) :
    (maskedCol n b f)[i]? = some (if b ≤ i then some (f i) else none) := by
  simp [maskedCol, List.getElem?_range, h]

/-- Cell lookup through a derived column: defined exactly on the rows at
or past the burn-in, holding the value function there. -/
theorem cellVal_of_masked {d : DataFrame} {nm : String} {n b : ℕ}
    {f : ℕ → ℚ} (h : d.col? nm = some (maskedCol n b f)) (i : ℕ) :
    d.cellVal nm i = if b ≤ i ∧ i < n then some (f i) else none := by
  by_cases hi : i < n
  · simp only [DataFrame.cellVal, h, Option.some_bind, maskedCol_getElem n b f hi]
    by_cases hb : b ≤ i <;> simp [hb, hi]
  · have hlen : (maskedCol n b f).length ≤ i := by
      rw [maskedCol_length]; omega
    simp only [DataFrame.cellVal, h, Option.some_bind,
      List.getElem?_eq_none hlen]
    simp [hi]

/-- Numeric-cell test through a derived column: true exactly at or past
the burn-in. -/
theorem cellIsNum_of_masked {d : DataFrame} {nm : String} {n b : ℕ}
    {f : ℕ → ℚ} (h : d.col? nm = some (maskedCol n b f)) {i : ℕ}
    (hi : i < n) : d.cellIsNum nm i = decide (b ≤ i) := by
  unfold DataFrame.cellIsNum
  rw [cellVal_of_masked h]
  by_cases hb : b ≤ i <;> simp [hb, hi]

/-! ### The columns of an enriched frame -/

/-- Enrichment keeps the index. -/
theorem calc_index (sq : ℚ → ℚ) (d : DataFrame) :
    (calculate_indicators sq d).index = d.index := by
  unfold calculate_indicators
  by_cases h : d.nrows < 20 <;> simp [h, index_setCol]

/-- Below 20 rows the enricher returns its argument unchanged (the
short-window guard of lines 12-13). -/
theorem calc_short (sq : ℚ → ℚ) (d : DataFrame) (h : d.nrows < 20) :
    calculate_indicators sq d = d := by
  unfold calculate_indicators
  exact if_pos h

/-- The `MA_20` column of an enriched frame. -/
theorem calc_col_ma (sq : ℚ → ℚ) (d : DataFrame) (h : ¬d.nrows < 20) :
    (calculate_indicators sq d).col? "MA_20"
      = some (maskedCol d.nrows 19 (smaVal 20 (d.numCol "Close"))) := by
  unfold calculate_indicators
  simp only [if_neg h]
  rw [col?_setCol_ne _ _ (by decide : "ADX" ≠ "MA_20"),
    col?_setCol_ne _ _ (by decide : "MACD_Histogram" ≠ "MA_20"),
    col?_setCol_ne _ _ (by decide : "MACD_Signal" ≠ "MA_20"),
    col?_setCol_ne _ _ (by decide : "MACD_Line" ≠ "MA_20"),
    col?_setCol_ne _ _ (by decide : "RSI" ≠ "MA_20"),
    col?_setCol_ne _ _ (by decide : "BB_Width" ≠ "MA_20"),
    col?_setCol_ne _ _ (by decide : "BB_Lower" ≠ "MA_20"),
    col?_setCol_ne _ _ (by decide : "BB_Upper" ≠ "MA_20"),
    col?_setCol_self]

/-- The `BB_Upper` column of an enriched frame. -/
theorem calc_col_bbu (sq : ℚ → ℚ) (d : DataFrame) (h : ¬d.nrows < 20) :
    (calculate_indicators sq d).col? "BB_Upper"
      = some (maskedCol d.nrows 19 (bbUpperVal sq (d.numCol "Close"))) := by
  unfold calculate_indicators
  simp only [if_neg h]
  rw [col?_setCol_ne _ _ (by decide : "ADX" ≠ "BB_Upper"),
    col?_setCol_ne _ _ (by decide : "MACD_Histogram" ≠ "BB_Upper"),
    col?_setCol_ne _ _ (by decide : "MACD_Signal" ≠ "BB_Upper"),
    col?_setCol_ne _ _ (by decide : "MACD_Line" ≠ "BB_Upper"),
    col?_setCol_ne _ _ (by decide : "RSI" ≠ "BB_Upper"),
    col?_setCol_ne _ _ (by decide : "BB_Width" ≠ "BB_Upper"),
    col?_setCol_ne _ _ (by decide : "BB_Lower" ≠ "BB_Upper"),
    col?_setCol_self]

/-- The `BB_Lower` column of an enriched frame. -/
theorem calc_col_bbl (sq : ℚ → ℚ) (d : DataFrame) (h : ¬d.nrows < 20) :
    (calculate_indicators sq d).col? "BB_Lower"
      = some (maskedCol d.nrows 19 (bbLowerVal sq (d.numCol "Close"))) := by
  unfold calculate_indicators
  simp only [if_neg h]
  rw [col?_setCol_ne _ _ (by decide : "ADX" ≠ "BB_Lower"),
    col?_setCol_ne _ _ (by decide : "MACD_Histogram" ≠ "BB_Lower"),
    col?_setCol_ne _ _ (by decide : "MACD_Signal" ≠ "BB_Lower"),
    col?_setCol_ne _ _ (by decide : "MACD_Line" ≠ "BB_Lower"),
    col?_setCol_ne _ _ (by decide : "RSI" ≠ "BB_Lower"),
    col?_setCol_ne _ _ (by decide : "BB_Width" ≠ "BB_Lower"),
    col?_setCol_self]

/-- The `BB_Width` column of an enriched frame. -/
theorem calc_col_bbw (sq : ℚ → ℚ) (d : DataFrame) (h : ¬d.nrows < 20) :
    (calculate_indicators sq d).col? "BB_Width"
      = some (maskedCol d.nrows 19 (bbWidthVal sq (d.numCol "Close"))) := by
  unfold calculate_indicators
  simp only [if_neg h]
  rw [col?_setCol_ne _ _ (by decide : "ADX" ≠ "BB_Width"),
    col?_setCol_ne _ _ (by decide : "MACD_Histogram" ≠ "BB_Width"),
    col?_setCol_ne _ _ (by decide : "MACD_Signal" ≠ "BB_Width"),
    col?_setCol_ne _ _ (by decide : "MACD_Line" ≠ "BB_Width"),
    col?_setCol_ne _ _ (by decide : "RSI" ≠ "BB_Width"),
    col?_setCol_self]

/-- The `RSI` column of an enriched frame. -/
theorem calc_col_rsi (sq : ℚ → ℚ) (d : DataFrame) (h : ¬d.nrows < 20) :
    (calculate_indicators sq d).col? "RSI"
      = some (maskedCol d.nrows 14 (rsiVal (d.numCol "Close"))) := by
  unfold calculate_indicators
  simp only [if_neg h]
  rw [col?_setCol_ne _ _ (by decide : "ADX" ≠ "RSI"),
    col?_setCol_ne _ _ (by decide : "MACD_Histogram" ≠ "RSI"),
    col?_setCol_ne _ _ (by decide : "MACD_Signal" ≠ "RSI"),
    col?_setCol_ne _ _ (by decide : "MACD_Line" ≠ "RSI"),
    col?_setCol_self]

/-- The `MACD_Line` column of an enriched frame. -/
theorem calc_col_macd (sq : ℚ → ℚ) (d : DataFrame) (h : ¬d.nrows < 20) :
    (calculate_indicators sq d).col? "MACD_Line"
      = some (maskedCol d.nrows 25 (macdLineVal (d.numCol "Close"))) := by
  unfold calculate_indicators
  simp only [if_neg h]
  rw [col?_setCol_ne _ _ (by decide : "ADX" ≠ "MACD_Line"),
    col?_setCol_ne _ _ (by decide : "MACD_Histogram" ≠ "MACD_Line"),
    col?_setCol_ne _ _ (by decide : "MACD_Signal" ≠ "MACD_Line"),
    col?_setCol_self]

/-- The `MACD_Signal` column of an enriched frame. -/
theorem calc_col_sig (sq : ℚ → ℚ) (d : DataFrame) (h : ¬d.nrows < 20) :
    (calculate_indicators sq d).col? "MACD_Signal"
      = some (maskedCol d.nrows 33 (macdSignalVal (d.numCol "Close"))) := by
  unfold calculate_indicators
  simp only [if_neg h]
  rw [col?_setCol_ne _ _ (by decide : "ADX" ≠ "MACD_Signal"),
    col?_setCol_ne _ _ (by decide : "MACD_Histogram" ≠ "MACD_Signal"),
    col?_setCol_self]

/-- The `MACD_Histogram` column of an enriched frame. -/
theorem calc_col_hist (sq : ℚ → ℚ) (d : DataFrame) (h : ¬d.nrows < 20) :
    (calculate_indicators sq d).col? "MACD_Histogram"
      = some (maskedCol d.nrows 33 (macdHistVal (d.numCol "Close"))) := by
  unfold calculate_indicators
  simp only [if_neg h]
  rw [col?_setCol_ne _ _ (by decide : "ADX" ≠ "MACD_Histogram"),
    col?_setCol_self]

/-- The `ADX` column of an enriched frame. -/
theorem calc_col_adx (sq : ℚ → ℚ) (d : DataFrame) (h : ¬d.nrows < 20) :
    (calculate_indicators sq d).col? "ADX"
      = some (maskedCol d.nrows 27
          (adxVal (d.numCol "High") (d.numCol "Low") (d.numCol "Close"))) := by
  unfold calculate_indicators
  simp only [if_neg h]
  rw [col?_setCol_self]

/-- Enrichment leaves every column outside the nine derived names
untouched. -/
theorem calc_col_other (sq : ℚ → ℚ) (d : DataFrame) {m : String}
    (hm : m ∉ derivedNames) : (calculate_indicators sq d).col? m = d.col? m := by
  simp only [derivedNames, List.mem_cons, List.mem_singleton, not_or] at hm
  obtain ⟨h1, h2, h3, h4, h5, h6, h7, h8, h9, -⟩ := hm
  by_cases h : d.nrows < 20
  · unfold calculate_indicators
    simp only [if_pos h]
  · unfold calculate_indicators
    simp only [if_neg h]
    rw [col?_setCol_ne _ _ (Ne.symm h9), col?_setCol_ne _ _ (Ne.symm h8),
      col?_setCol_ne _ _ (Ne.symm h7), col?_setCol_ne _ _ (Ne.symm h6),
      col?_setCol_ne _ _ (Ne.symm h5), col?_setCol_ne _ _ (Ne.symm h4),
      col?_setCol_ne _ _ (Ne.symm h3), col?_setCol_ne _ _ (Ne.symm h2),
      col?_setCol_ne _ _ (Ne.symm h1)]

/-! ### Claim C1 -/

/-- C1 counterexample: on the concrete 20-row constant series `d20`, the
`RSI` column is already numeric at row 15 (index 14), so the uniform
19-row no-value prefix claimed for every derived column fails. -/
theorem c1_counterexample : ¬c1Statement := by
  intro hclaim
  have h := hclaim sqrtQ0 d20 (by decide) "RSI" (by decide) 14 (by decide)
  exact absurd h (by decide)

/-- C1 (amended): for a price series with at least 20 rows, each derived
column is missing in exactly the burn-in prefix of its own construction
and numeric from there on: 19 rows for `MA_20` and the three Bollinger
columns, 14 for `RSI`, 25 for `MACD_Line`, 33 for `MACD_Signal` and
`MACD_Histogram`, and 27 for `ADX` (each truncated to the series length
when the series is shorter than the burn-in). -/
theorem c1_burnins (sq : ℚ → ℚ) (d : DataFrame) (h20 : 20 ≤ d.nrows)
    (i : ℕ) (hi : i < d.nrows) :
    (calculate_indicators sq d).cellIsNum "MA_20" i = decide (19 ≤ i) ∧
    (calculate_indicators sq d).cellIsNum "BB_Upper" i = decide (19 ≤ i) ∧
    (calculate_indicators sq d).cellIsNum "BB_Lower" i = decide (19 ≤ i) ∧
    (calculate_indicators sq d).cellIsNum "BB_Width" i = decide (19 ≤ i) ∧
    (calculate_indicators sq d).cellIsNum "RSI" i = decide (14 ≤ i) ∧
    (calculate_indicators sq d).cellIsNum "MACD_Line" i = decide (25 ≤ i) ∧
    (calculate_indicators sq d).cellIsNum "MACD_Signal" i = decide (33 ≤ i) ∧
    (calculate_indicators sq d).cellIsNum "MACD_Histogram" i = decide (33 ≤ i) ∧
    (calculate_indicators sq d).cellIsNum "ADX" i = decide (27 ≤ i) := by
  have h : ¬d.nrows < 20 := by omega
  exact ⟨cellIsNum_of_masked (calc_col_ma sq d h) hi,
    cellIsNum_of_masked (calc_col_bbu sq d h) hi,
    cellIsNum_of_masked (calc_col_bbl sq d h) hi,
    cellIsNum_of_masked (calc_col_bbw sq d h) hi,
    cellIsNum_of_masked (calc_col_rsi sq d h) hi,
    cellIsNum_of_masked (calc_col_macd sq d h) hi,
    cellIsNum_of_masked (calc_col_sig sq d h) hi,
    cellIsNum_of_masked (calc_col_hist sq d h) hi,
    cellIsNum_of_masked (calc_col_adx sq d h) hi⟩

/-- Witness for `c1_burnins` at the concrete series `d20`, row 19. -/
theorem c1_burnins_witness :
    (20 ≤ d20.nrows ∧ 19 < d20.nrows) ∧
    ((calculate_indicators sqrtQ0 d20).cellIsNum "MA_20" 19 = decide (19 ≤ 19) ∧
     (calculate_indicators sqrtQ0 d20).cellIsNum "BB_Upper" 19 = decide (19 ≤ 19) ∧
     (calculate_indicators sqrtQ0 d20).cellIsNum "BB_Lower" 19 = decide (19 ≤ 19) ∧
     (calculate_indicators sqrtQ0 d20).cellIsNum "BB_Width" 19 = decide (19 ≤ 19) ∧
     (calculate_indicators sqrtQ0 d20).cellIsNum "RSI" 19 = decide (14 ≤ 19) ∧
     (calculate_indicators sqrtQ0 d20).cellIsNum "MACD_Line" 19 = decide (25 ≤ 19) ∧
     (calculate_indicators sqrtQ0 d20).cellIsNum "MACD_Signal" 19 = decide (33 ≤ 19) ∧
     (calculate_indicators sqrtQ0 d20).cellIsNum "MACD_Histogram" 19 = decide (33 ≤ 19) ∧
     (calculate_indicators sqrtQ0 d20).cellIsNum "ADX" 19 = decide (27 ≤ 19)) :=
  ⟨⟨by decide, by decide⟩, c1_burnins sqrtQ0 d20 (by decide) 19 (by decide)⟩

/-! ### Claim C4 (the short-series guard, needed next by C2 and C3) -/

/-- C4: for every price series with fewer than 20 rows, enrichment is a
no-op: the frame is returned with exactly its input columns and values
and no derived column is added. -/
theorem c4_short_noop (sq : ℚ → ℚ) (d : DataFrame) (h : d.nrows < 20) :
    calculate_indicators sq d = d :=
  calc_short sq d h

/-- Witness for `c4_short_noop` at the concrete 3-row series `d3`. -/
theorem c4_short_noop_witness :
    d3.nrows < 20 ∧ calculate_indicators sqrtQ0 d3 = d3 :=
  ⟨by decide, c4_short_noop sqrtQ0 d3 (by decide)⟩

/-! ### Claim C3 -/

/-- C3 counterexample: on the concrete 20-row series `d20` the caller's
object after the call carries the nine derived columns (14 columns where
the input had 5), so the call does mutate the caller's input object. -/
theorem c3_counterexample : ¬c3Statement := by
  intro hclaim
  have h := congrArg (fun x => x.cols.length) (hclaim sqrtQ0 d20)
  exact absurd h (by decide)

/-- C3 (amended): the enricher is deterministic but mutates its argument
in place: after the call the caller's object is exactly the returned
enriched frame.  The mutation is confined to the nine derived columns:
every column outside the nine derived names, and the index, keep their
input values. -/
theorem c3_mutation_frame (sq : ℚ → ℚ) (d : DataFrame) (m : String)
    (hm : m ∉ derivedNames) :
    calculate_indicators_argAfter sq d = calculate_indicators sq d ∧
    (calculate_indicators sq d).col? m = d.col? m ∧
    (calculate_indicators sq d).index = d.index :=
  ⟨rfl, calc_col_other sq d hm, calc_index sq d⟩

/-- Witness for `c3_mutation_frame` at `d20` and the input column
`Close`. -/
theorem c3_mutation_frame_witness :
    ("Close" ∉ derivedNames) ∧
    (calculate_indicators_argAfter sqrtQ0 d20 = calculate_indicators sqrtQ0 d20 ∧
     (calculate_indicators sqrtQ0 d20).col? "Close" = d20.col? "Close" ∧
     (calculate_indicators sqrtQ0 d20).index = d20.index) :=
  ⟨by decide, c3_mutation_frame sqrtQ0 d20 "Close" (by decide)⟩

/-! ### Claim C2 -/

/-- C2: in an enriched frame, wherever the upper band, the lower band and
the 20-period middle band (`MA_20`) are all defined, the stored width is
exactly their normalized difference `(upper - lower) / middle` (exact
rational arithmetic; the input is a price series, so it does not already
carry a `BB_Upper` column). -/
theorem c2_bb_width (sq : ℚ → ℚ) (d : DataFrame) (i : ℕ) (u l m : ℚ)
    (hpr : d.col? "BB_Upper" = none)
    (hu : (calculate_indicators sq d).cellVal "BB_Upper" i = some u)
    (hl : (calculate_indicators sq d).cellVal "BB_Lower" i = some l)
    (hm : (calculate_indicators sq d).cellVal "MA_20" i = some m) :
    (calculate_indicators sq d).cellVal "BB_Width" i = some ((u - l) / m) := by
  by_cases h : d.nrows < 20
  · rw [calc_short sq d h] at hu
    simp [DataFrame.cellVal, hpr] at hu
  · rw [cellVal_of_masked (calc_col_bbu sq d h)] at hu
    rw [cellVal_of_masked (calc_col_bbl sq d h)] at hl
    rw [cellVal_of_masked (calc_col_ma sq d h)] at hm
    rw [cellVal_of_masked (calc_col_bbw sq d h)]
    by_cases hc : 19 ≤ i ∧ i < d.nrows
    · rw [if_pos hc] at hu hl hm ⊢
      have hu := Option.some.inj hu
      have hl := Option.some.inj hl
      have hm := Option.some.inj hm
      subst hu hl hm
      rfl
    · rw [if_neg hc] at hu
      exact absurd hu (by simp)

/-- The close column of `d20` as a numeric series. -/
theorem numCol_d20_close : d20.numCol "Close" = List.replicate 20 (1 : ℚ) := by
  decide

/-- The trailing 20-window at row 19 of a 20-element constant series is
the whole series. -/
theorem windowAt_const (q : ℚ) :
    windowAt 20 19 (List.replicate 20 q) = List.replicate 20 q := by
  simp [windowAt, List.take_replicate, List.drop_replicate]

/-- The 20-period SMA of a constant-1 series at row 19. -/
theorem smaVal_const : smaVal 20 (List.replicate 20 (1 : ℚ)) 19 = 1 := by
  rw [smaVal, windowAt_const, List.sum_replicate]
  norm_num

/-- The 20-period variance of a constant series at row 19. -/
theorem varVal_const : varVal 20 (List.replicate 20 (1 : ℚ)) 19 = 0 := by
  rw [varVal, windowAt_const, List.map_replicate, smaVal_const,
    List.sum_replicate]
  norm_num

/-- The concrete square root of zero. -/
theorem sqrtQ0_zero : sqrtQ0 0 = 0 := by
  simp [sqrtQ0]

/-- The upper band of the constant-1 series at row 19. -/
theorem bbUpperVal_const : bbUpperVal sqrtQ0 (List.replicate 20 (1 : ℚ)) 19 = 1 := by
  rw [bbUpperVal, smaVal_const, varVal_const, sqrtQ0_zero]
  norm_num

/-- The lower band of the constant-1 series at row 19. -/
theorem bbLowerVal_const : bbLowerVal sqrtQ0 (List.replicate 20 (1 : ℚ)) 19 = 1 := by
  rw [bbLowerVal, smaVal_const, varVal_const, sqrtQ0_zero]
  norm_num

/-- Witness for `c2_bb_width` at `d20`, row 19, where all three bands
evaluate to 1 and the width to `(1 - 1) / 1`. -/
theorem c2_bb_width_witness :
    (d20.col? "BB_Upper" = none ∧
     (calculate_indicators sqrtQ0 d20).cellVal "BB_Upper" 19 = some 1 ∧
     (calculate_indicators sqrtQ0 d20).cellVal "BB_Lower" 19 = some 1 ∧
     (calculate_indicators sqrtQ0 d20).cellVal "MA_20" 19 = some 1) ∧
    (calculate_indicators sqrtQ0 d20).cellVal "BB_Width" 19 = some ((1 - 1) / 1) := by
  have hrange : (19 ≤ 19 ∧ 19 < d20.nrows) := by decide
  have hu : (calculate_indicators sqrtQ0 d20).cellVal "BB_Upper" 19 = some 1 := by
    rw [cellVal_of_masked (calc_col_bbu sqrtQ0 d20 (by decide)), if_pos hrange,
      numCol_d20_close, bbUpperVal_const]
  have hl : (calculate_indicators sqrtQ0 d20).cellVal "BB_Lower" 19 = some 1 := by
    rw [cellVal_of_masked (calc_col_bbl sqrtQ0 d20 (by decide)), if_pos hrange,
      numCol_d20_close, bbLowerVal_const]
  have hm : (calculate_indicators sqrtQ0 d20).cellVal "MA_20" 19 = some 1 := by
    rw [cellVal_of_masked (calc_col_ma sqrtQ0 d20 (by decide)), if_pos hrange,
      numCol_d20_close, smaVal_const]
  exact ⟨⟨by decide, hu, hl, hm⟩,
    c2_bb_width sqrtQ0 d20 19 1 1 1 (by decide) hu hl hm⟩

/-! ### Pipeline lemmas -/

/-- String concatenation associates. -/
theorem string_append_assoc (a b c : String) : a ++ b ++ c = a ++ (b ++ c) := by
  cases a; cases b; cases c
  show String.mk _ = String.mk _
  rw [List.append_assoc]

/-- The loop state is append-only: folding the per-ticker step over a
list appends each field's per-ticker contributions. -/
theorem foldl_processTicker (sq : ℚ → ℚ) (source : Source) (L : List String)
    (st : RunState) :
    L.foldl (processTicker sq source) st =
      ⟨st.warnings ++ collect (warningsOf sq source) L,
       st.infos ++ collect infosOf L,
       st.queries ++ L.map (fun t => t ++ ".NS"),
       st.charts ++ collect (chartsOf sq source) L,
       st.aggRows ++ collect (aggOf sq source) L⟩ := by
  induction L generalizing st with
  | nil => simp [collect]
  | cons t ts ih =>
      rw [List.foldl_cons, ih]
      by_cases h : (fetch_stock_data sq source t).1.nrows = 0 <;>
        simp [processTicker, collect, warningsOf, chartsOf, aggOf, infosOf, h,
          List.append_assoc]

/-- The run state of a non-fatal run, field by field. -/
theorem main_state_eq (sq : ℚ → ℚ) (source : Source) (csvCols : List String)
    (col : List (Option String)) (h : "Ticker" ∈ csvCols) :
    (main sq source csvCols col).state =
      ⟨collect (warningsOf sq source) (processedTickers col),
       collect infosOf (processedTickers col),
       (processedTickers col).map (fun t => t ++ ".NS"),
       collect (chartsOf sq source) (processedTickers col),
       collect (aggOf sq source) (processedTickers col)⟩ := by
  simp [main, h, foldl_processTicker, initState]

/-- The export artifact of a non-fatal run. -/
theorem main_exported (sq : ℚ → ℚ) (source : Source) (csvCols : List String)
    (col : List (Option String)) (h : "Ticker" ∈ csvCols) :
    (main sq source csvCols col).exported =
      if collect (aggOf sq source) (processedTickers col) = [] then none
      else some (collect (aggOf sq source) (processedTickers col)) := by
  simp [main, h, foldl_processTicker, initState]

/-- A fatal run in full. -/
theorem main_fatal (sq : ℚ → ℚ) (source : Source) (csvCols : List String)
    (col : List (Option String)) (h : "Ticker" ∉ csvCols) :
    main sq source csvCols col =
      ⟨["The uploaded CSV must contain a column named Ticker."],
       initState, none⟩ := by
  simp [main, h]

/-- Membership in a concatenation of contributions comes from some list
element's contribution. -/
theorem mem_collect {α : Type} {f : String → List α} {L : List String}
    {x : α} (h : x ∈ collect f L) : ∃ t, t ∈ L ∧ x ∈ f t := by
  induction L with
  | nil => simp [collect] at h
  | cons t ts ih =>
      simp only [collect] at h
      rcases List.mem_append.mp h with h1 | h2
      · exact ⟨t, by simp, h1⟩
      · obtain ⟨u, hu, hx⟩ := ih h2
        exact ⟨u, by simp [hu], hx⟩

/-- Dropping an element with no contribution does not change the
concatenated contributions. -/
theorem collect_filter_ne {α : Type} (f : String → List α) (t : String)
    (hf : f t = []) (L : List String) :
    collect f (L.filter (fun u => u != t)) = collect f L := by
  induction L with
  | nil => rfl
  | cons u us ih =>
      by_cases h : u = t
      · subst h; simp [List.filter_cons, collect, hf, ih]
      · simp [List.filter_cons, h, collect, ih]

/-- Every aggregation row a ticker contributes is stamped with that
ticker. -/
theorem aggOf_ticker {sq : ℚ → ℚ} {source : Source} {u : String}
    {r : AggRow} (h : r ∈ aggOf sq source u) : r.ticker = u := by
  unfold aggOf at h
  by_cases hz : (fetch_stock_data sq source u).1.nrows = 0
  · simp [hz] at h
  · simp [hz] at h
    subst h
    rfl

/-- A ticker whose fetch came back empty contributes no aggregation
row. -/
theorem aggOf_eq_nil {sq : ℚ → ℚ} {source : Source} {t : String}
    (h : (fetch_stock_data sq source t).1.nrows = 0) :
    aggOf sq source t = [] := by
  simp [aggOf, h]

/-- A chart contribution names its own ticker, and only a non-empty
fetch charts. -/
theorem chartsOf_mem {sq : ℚ → ℚ} {source : Source} {u t : String}
    (h : t ∈ chartsOf sq source u) :
    t = u ∧ ¬(fetch_stock_data sq source u).1.nrows = 0 := by
  unfold chartsOf at h
  by_cases hz : (fetch_stock_data sq source u).1.nrows = 0
  · simp [hz] at h
  · simp [hz] at h
    exact ⟨h, hz⟩

/-- The tickers of the concatenated aggregation rows are the processed
tickers whose fetch was non-empty, in order. -/
theorem collect_aggOf_map_ticker (sq : ℚ → ℚ) (source : Source)
    (L : List String) :
    (collect (aggOf sq source) L).map AggRow.ticker =
      L.filter (fun t => (fetch_stock_data sq source t).1.nrows != 0) := by
  induction L with
  | nil => rfl
  | cons t ts ih =>
      by_cases h : (fetch_stock_data sq source t).1.nrows = 0 <;>
        simp [collect, aggOf, h, mkAggRow, List.filter_cons, ih]

/-- In a sorted nonempty list the last element is a member and an upper
bound, i.e. the maximum. -/
theorem sorted_last_max :
    ∀ l : List ℚ, l.Sorted (· ≤ ·) → l ≠ [] →
      ∀ a : ℚ, l.getLastD a ∈ l ∧ ∀ x ∈ l, x ≤ l.getLastD a := by
  intro l
  induction l with
  | nil => intro _ h; exact absurd rfl h
  | cons x xs ih =>
      intro hs _ a
      obtain ⟨hx, hxs⟩ := List.sorted_cons.mp hs
      rw [List.getLastD_cons a x xs]
      cases xs with
      | nil => simp
      | cons y ys =>
          have hrec := ih hxs (by simp) x
          refine ⟨List.mem_cons_of_mem x hrec.1, ?_⟩
          intro z hz
          rcases List.mem_cons.mp hz with rfl | hz2
          · exact hx _ hrec.1
          · exact hrec.2 z hz2

/-- The frame a successful non-empty fetch returns. -/
theorem fetch_ok_frame (sq : ℚ → ℚ) (source : Source) (t : String)
    (d : DataFrame) (hok : source (t ++ ".NS") = .ok d)
    (hn : ¬d.nrows = 0) :
    (fetch_stock_data sq source t).1 = calculate_indicators sq (reshape d) := by
  simp [fetch_stock_data, hok, hn]

/-- Reshaping keeps the index. -/
theorem reshape_index (d : DataFrame) : (reshape d).index = d.index := rfl

/-- Enrichment keeps the number of rows. -/
theorem calc_nrows (sq : ℚ → ℚ) (d : DataFrame) :
    (calculate_indicators sq d).nrows = d.nrows := by
  unfold DataFrame.nrows
  rw [calc_index]

/-- A successful non-empty fetch keeps the downloaded index. -/
theorem fetch_ok_index (sq : ℚ → ℚ) (source : Source) (t : String)
    (d : DataFrame) (hok : source (t ++ ".NS") = .ok d)
    (hn : ¬d.nrows = 0) :
    (fetch_stock_data sq source t).1.index = d.index := by
  rw [fetch_ok_frame sq source t d hok hn, calc_index, reshape_index]

/-- A successful non-empty fetch keeps the downloaded row count. -/
theorem fetch_ok_nrows (sq : ℚ → ℚ) (source : Source) (t : String)
    (d : DataFrame) (hok : source (t ++ ".NS") = .ok d)
    (hn : ¬d.nrows = 0) :
    (fetch_stock_data sq source t).1.nrows = d.nrows := by
  unfold DataFrame.nrows
  rw [fetch_ok_index sq source t d hok hn]

/-! ### Preprocessing lemmas -/

/-- Membership in the deduplicated list: present in the input and not
among the already-seen entries. -/
theorem uniqueFirstAux_mem (t : String) :
    ∀ (l seen : List String),
      t ∈ uniqueFirstAux seen l ↔ t ∈ l ∧ t ∉ seen := by
  intro l
  induction l with
  | nil => intro seen; simp [uniqueFirstAux]
  | cons x xs ih =>
      intro seen
      by_cases hx : x ∈ seen
      · rw [uniqueFirstAux, if_pos hx, ih seen]
        constructor
        · rintro ⟨h1, h2⟩
          exact ⟨List.mem_cons_of_mem x h1, h2⟩
        · rintro ⟨h1, h2⟩
          rcases List.mem_cons.mp h1 with rfl | h3
          · exact absurd hx h2
          · exact ⟨h3, h2⟩
      · rw [uniqueFirstAux, if_neg hx]
        constructor
        · intro h
          rcases List.mem_cons.mp h with rfl | h2
          · exact ⟨List.mem_cons_self t xs, hx⟩
          · obtain ⟨h3, h4⟩ := (ih (x :: seen)).mp h2
            exact ⟨List.mem_cons_of_mem x h3,
              fun hs => h4 (List.mem_cons_of_mem x hs)⟩
        · rintro ⟨h1, h2⟩
          by_cases ht : t = x
          · subst ht; exact List.mem_cons_self t _
          · rcases List.mem_cons.mp h1 with rfl | h3
            · exact absurd rfl ht
            · refine List.mem_cons_of_mem x ((ih (x :: seen)).mpr ⟨h3, ?_⟩)
              intro hs
              rcases List.mem_cons.mp hs with h4 | h5
              · exact ht h4
              · exact h2 h5

/-- The deduplicated list has no duplicates. -/
theorem uniqueFirstAux_nodup :
    ∀ (l seen : List String), (uniqueFirstAux seen l).Nodup := by
  intro l
  induction l with
  | nil => intro seen; simp [uniqueFirstAux]
  | cons x xs ih =>
      intro seen
      by_cases hx : x ∈ seen
      · rw [uniqueFirstAux, if_pos hx]
        exact ih seen
      · rw [uniqueFirstAux, if_neg hx]
        refine List.nodup_cons.mpr ⟨?_, ih (x :: seen)⟩
        intro hmem
        exact ((uniqueFirstAux_mem x xs (x :: seen)).mp hmem).2
          (List.mem_cons_self x seen)

/-- Along the deduplicated list, first-occurrence positions in the input
are strictly increasing: the output is in first-seen order. -/
theorem uniqueFirstAux_pairwise :
    ∀ (l seen : List String),
      (uniqueFirstAux seen l).Pairwise
        (fun a b => firstIdx a l < firstIdx b l) := by
  intro l
  induction l with
  | nil => intro seen; simp [uniqueFirstAux]
  | cons x xs ih =>
      intro seen
      by_cases hx : x ∈ seen
      · rw [uniqueFirstAux, if_pos hx]
        refine List.Pairwise.imp_of_mem ?_ (ih seen)
        intro a b ha hb hab
        have ha2 := (uniqueFirstAux_mem a xs seen).mp ha
        have hb2 := (uniqueFirstAux_mem b xs seen).mp hb
        have hax : ¬x = a := fun h => ha2.2 (h ▸ hx)
        have hbx : ¬x = b := fun h => hb2.2 (h ▸ hx)
        simpa [firstIdx, hax, hbx] using Nat.succ_lt_succ hab
      · rw [uniqueFirstAux, if_neg hx]
        refine List.pairwise_cons.mpr ⟨?_, ?_⟩
        · intro b hb
          have hb2 := (uniqueFirstAux_mem b xs (x :: seen)).mp hb
          have hbx : ¬x = b := fun h => hb2.2 (h ▸ List.mem_cons_self x seen)
          simp [firstIdx, hbx]
        · refine List.Pairwise.imp_of_mem ?_ (ih (x :: seen))
          intro a b ha hb hab
          have ha2 := (uniqueFirstAux_mem a xs (x :: seen)).mp ha
          have hb2 := (uniqueFirstAux_mem b xs (x :: seen)).mp hb
          have hax : ¬x = a := fun h => ha2.2 (h ▸ List.mem_cons_self x seen)
          have hbx : ¬x = b := fun h => hb2.2 (h ▸ List.mem_cons_self x seen)
          simpa [firstIdx, hax, hbx] using Nat.succ_lt_succ hab

/-! ### Claim C5 -/

/-- C5: when the download for a ticker raises or returns no rows, the
fetch returns an empty result; a raised error surfaces exactly one
warning carrying the queried ticker and the error text; such a ticker
contributes no aggregation row and no chart; and the aggregation of a
run equals the aggregation with that ticker removed from the processed
list, i.e. processing continues with the remaining tickers. -/
theorem c5_fetch_failure (sq : ℚ → ℚ) (source : Source) (t : String)
    (hf : fetchFails source t) :
    (fetch_stock_data sq source t).1.nrows = 0 ∧
    (∀ e, source (t ++ ".NS") = .err e →
      (fetch_stock_data sq source t).2 =
        ["Error fetching data for " ++ (t ++ (".NS: " ++ e))]) ∧
    (∀ csvCols tickerCol,
      (∀ r ∈ (main sq source csvCols tickerCol).state.aggRows,
        r.ticker ≠ t) ∧
      t ∉ (main sq source csvCols tickerCol).state.charts ∧
      ("Ticker" ∈ csvCols →
        collect (aggOf sq source)
            ((processedTickers tickerCol).filter (fun u => u != t)) =
          (main sq source csvCols tickerCol).state.aggRows)) := by
  have hempty : (fetch_stock_data sq source t).1.nrows = 0 := by
    unfold fetchFails at hf
    cases hsrc : source (t ++ ".NS") with
    | err e => simp [fetch_stock_data, hsrc, emptyFrame, DataFrame.nrows]
    | ok d =>
        rw [hsrc] at hf
        simp [fetch_stock_data, hsrc, hf]
  refine ⟨hempty, ?_, ?_⟩
  · intro e he
    simp [fetch_stock_data, he, fetchErrMsg, string_append_assoc]
  · intro csvCols tickerCol
    by_cases hcsv : "Ticker" ∈ csvCols
    · have hs := main_state_eq sq source csvCols tickerCol hcsv
      have haggr : (main sq source csvCols tickerCol).state.aggRows =
          collect (aggOf sq source) (processedTickers tickerCol) := by
        rw [hs]
      have hcharts : (main sq source csvCols tickerCol).state.charts =
          collect (chartsOf sq source) (processedTickers tickerCol) := by
        rw [hs]
      refine ⟨?_, ?_, fun _ => ?_⟩
      · intro r hr hrt
        rw [haggr] at hr
        obtain ⟨u, _, hru⟩ := mem_collect hr
        have hu := aggOf_ticker hru
        rw [hrt] at hu
        rw [← hu, aggOf_eq_nil hempty] at hru
        exact absurd hru (List.not_mem_nil r)
      · intro hch
        rw [hcharts] at hch
        obtain ⟨u, _, htu⟩ := mem_collect hch
        obtain ⟨rfl, hne⟩ := chartsOf_mem htu
        exact hne hempty
      · rw [haggr]
        exact collect_filter_ne _ t (aggOf_eq_nil hempty) _
    · rw [main_fatal sq source csvCols tickerCol hcsv]
      exact ⟨fun r hr => absurd hr (List.not_mem_nil r),
        fun hch => absurd hch (List.not_mem_nil t),
        fun hc => absurd hc hcsv⟩

/-- Witness for `c5_fetch_failure`: the always-raising source `srcB`
and the ticker `AAA`. -/
theorem c5_fetch_failure_witness :
    fetchFails srcB "AAA" ∧
    ((fetch_stock_data sqrtQ0 srcB "AAA").1.nrows = 0 ∧
     (∀ e, srcB ("AAA" ++ ".NS") = .err e →
       (fetch_stock_data sqrtQ0 srcB "AAA").2 =
         ["Error fetching data for " ++ ("AAA" ++ (".NS: " ++ e))]) ∧
     (∀ csvCols tickerCol,
       (∀ r ∈ (main sqrtQ0 srcB csvCols tickerCol).state.aggRows,
         r.ticker ≠ "AAA") ∧
       "AAA" ∉ (main sqrtQ0 srcB csvCols tickerCol).state.charts ∧
       ("Ticker" ∈ csvCols →
         collect (aggOf sqrtQ0 srcB)
             ((processedTickers tickerCol).filter (fun u => u != "AAA")) =
           (main sqrtQ0 srcB csvCols tickerCol).state.aggRows))) :=
  ⟨trivial, c5_fetch_failure sqrtQ0 srcB "AAA" trivial⟩

/-! ### Claim C6 -/

/-- C6: an uploaded table without a `Ticker` column halts the run with a
fatal error shown to the user: no key is queried against the source, no
chart is rendered, no aggregation row collected, and no export artifact
produced. -/
theorem c6_missing_ticker_column (sq : ℚ → ℚ) (source : Source)
    (csvCols : List String) (tickerCol : List (Option String))
    (h : "Ticker" ∉ csvCols) :
    (main sq source csvCols tickerCol).fatalErrors =
      ["The uploaded CSV must contain a column named Ticker."] ∧
    (main sq source csvCols tickerCol).state.queries = [] ∧
    (main sq source csvCols tickerCol).state.charts = [] ∧
    (main sq source csvCols tickerCol).state.aggRows = [] ∧
    (main sq source csvCols tickerCol).exported = none := by
  rw [main_fatal sq source csvCols tickerCol h]
  exact ⟨rfl, rfl, rfl, rfl, rfl⟩

/-- Witness for `c6_missing_ticker_column`: an upload whose only column
is `Symbol`. -/
theorem c6_missing_ticker_column_witness :
    "Ticker" ∉ ["Symbol"] ∧
    ((main sqrtQ0 srcA ["Symbol"] [some "AAA"]).fatalErrors =
      ["The uploaded CSV must contain a column named Ticker."] ∧
     (main sqrtQ0 srcA ["Symbol"] [some "AAA"]).state.queries = [] ∧
     (main sqrtQ0 srcA ["Symbol"] [some "AAA"]).state.charts = [] ∧
     (main sqrtQ0 srcA ["Symbol"] [some "AAA"]).state.aggRows = [] ∧
     (main sqrtQ0 srcA ["Symbol"] [some "AAA"]).exported = none) :=
  ⟨by decide, c6_missing_ticker_column sqrtQ0 srcA ["Symbol"] [some "AAA"]
    (by decide)⟩

/-! ### Claim C7 -/

/-- C7: the rows of the aggregated export carry the processed tickers in
first-seen input order, with every ticker whose fetch returned an empty
result omitted. -/
theorem c7_export_order (sq : ℚ → ℚ) (source : Source)
    (csvCols : List String) (col : List (Option String))
    (h : "Ticker" ∈ csvCols) :
    ((main sq source csvCols col).exported.getD []).map AggRow.ticker =
      (processedTickers col).filter
        (fun t => (fetch_stock_data sq source t).1.nrows != 0) := by
  rw [← collect_aggOf_map_ticker sq source (processedTickers col),
    main_exported sq source csvCols col h]
  by_cases hz : collect (aggOf sq source) (processedTickers col) = []
  · simp [hz]
  · simp [hz]

/-- Witness for `c7_export_order`: a two-ticker upload against the
source that only answers `AAA.NS`. -/
theorem c7_export_order_witness :
    "Ticker" ∈ ["Ticker"] ∧
    ((main sqrtQ0 srcA ["Ticker"] [some "AAA", some "BBB"]).exported.getD
        []).map AggRow.ticker =
      (processedTickers [some "AAA", some "BBB"]).filter
        (fun t => (fetch_stock_data sqrtQ0 srcA t).1.nrows != 0) :=
  ⟨by decide,
   c7_export_order sqrtQ0 srcA ["Ticker"] [some "AAA", some "BBB"]
     (by decide)⟩

/-! ### Claim C8 -/

/-- C8: for a successfully fetched ticker (at least one row, ascending
dates), the loop appends exactly one aggregation row, and the date
stamped on it is the maximum date of that ticker's price series: a
member of the series dates bounding them all from above. -/
theorem c8_date_is_max (sq : ℚ → ℚ) (source : Source) (st : RunState)
    (t : String) (d : DataFrame) (hok : source (t ++ ".NS") = .ok d)
    (hn : d.nrows ≠ 0) (hsort : d.index.Sorted (· ≤ ·)) :
    ∃ r, (processTicker sq source st t).aggRows = st.aggRows ++ [r] ∧
      r.date ∈ d.index ∧ ∀ x ∈ d.index, x ≤ r.date := by
  have hidx := fetch_ok_index sq source t d hok hn
  have hnz : ¬(fetch_stock_data sq source t).1.nrows = 0 := by
    rw [fetch_ok_nrows sq source t d hok hn]
    exact hn
  have hne : d.index ≠ [] := by
    intro hnil
    exact hn (by unfold DataFrame.nrows; rw [hnil]; rfl)
  refine ⟨mkAggRow t (fetch_stock_data sq source t).1, ?_, ?_⟩
  · simp [processTicker, hnz]
  · have hdate : (mkAggRow t (fetch_stock_data sq source t).1).date =
        d.index.getLastD 0 := by
      unfold mkAggRow
      rw [hidx]
    rw [hdate]
    exact sorted_last_max d.index hsort hne 0

/-- Witness for `c8_date_is_max`: the one-row series `dOne` behind the
key `AAA.NS`. -/
theorem c8_date_is_max_witness :
    (srcA ("AAA" ++ ".NS") = .ok dOne ∧ dOne.nrows ≠ 0 ∧
     dOne.index.Sorted (· ≤ ·)) ∧
    (∃ r, (processTicker sqrtQ0 srcA initState "AAA").aggRows =
        initState.aggRows ++ [r] ∧
      r.date ∈ dOne.index ∧ ∀ x ∈ dOne.index, x ≤ r.date) :=
  ⟨⟨rfl, by decide, by decide⟩,
   c8_date_is_max sqrtQ0 srcA initState "AAA" dOne rfl (by decide)
     (by decide)⟩

/-! ### Claim C9 -/

/-- C9: the ticker preprocessing of line 126 deduplicates and drops
missing entries while preserving first-seen order: every present ticker
of the uploaded column appears exactly once, every processed entry comes
from a present cell, and first-occurrence positions strictly increase
along the processed list. -/
theorem c9_preprocess (col : List (Option String)) :
    (processedTickers col).Nodup ∧
    (∀ t, t ∈ processedTickers col ↔ some t ∈ col) ∧
    (∀ t, some t ∈ col → (processedTickers col).count t = 1) ∧
    (processedTickers col).Pairwise
      (fun a b =>
        firstIdx a (col.filterMap id) < firstIdx b (col.filterMap id)) := by
  have hnd := uniqueFirstAux_nodup (col.filterMap id) []
  have hmem : ∀ t, t ∈ processedTickers col ↔ some t ∈ col := by
    intro t
    rw [processedTickers, uniqueFirstAux_mem t (col.filterMap id) []]
    simp [List.mem_filterMap]
  refine ⟨hnd, hmem, ?_, uniqueFirstAux_pairwise (col.filterMap id) []⟩
  intro t ht
  exact List.count_eq_one_of_mem hnd ((hmem t).mpr ht)

/-- Witness for `c9_preprocess`: a column with a duplicate, a missing
cell, and two distinct tickers. -/
theorem c9_preprocess_witness :
    (some "AAA" ∈ [some "AAA", none, some "BBB", some "AAA"] ∧
     (processedTickers [some "AAA", none, some "BBB", some "AAA"]).count
       "AAA" = 1) ∧
    (processedTickers [some "AAA", none, some "BBB", some "AAA"]).Nodup :=
  ⟨⟨by decide,
    (c9_preprocess [some "AAA", none, some "BBB", some "AAA"]).2.2.1 "AAA"
      (by decide)⟩,
   (c9_preprocess [some "AAA", none, some "BBB", some "AAA"]).1⟩

/-! ### Claim C10 -/

/-- C10: the key queried for a ticker is exactly the ticker with the
fixed `.NS` suffix appended — the fetch depends on the source only
through its answer at that key, and every key a run queries has the
suffix — while the aggregation row of a successful ticker is stamped
with the original un-suffixed symbol. -/
theorem c10_key_and_symbol (sq : ℚ → ℚ) (s1 s2 : Source) (t : String)
    (hagree : s1 (t ++ ".NS") = s2 (t ++ ".NS")) :
    fetch_stock_data sq s1 t = fetch_stock_data sq s2 t ∧
    (∀ (st : RunState) (d : DataFrame),
      s1 (t ++ ".NS") = .ok d → d.nrows ≠ 0 →
      ((processTicker sq s1 st t).aggRows).map AggRow.ticker =
        st.aggRows.map AggRow.ticker ++ [t]) ∧
    (∀ csvCols col, "Ticker" ∈ csvCols →
      (main sq s1 csvCols col).state.queries =
        (processedTickers col).map (fun u => u ++ ".NS")) := by
  refine ⟨?_, ?_, ?_⟩
  · simp only [fetch_stock_data, hagree]
  · intro st d hok hn
    have hnz : ¬(fetch_stock_data sq s1 t).1.nrows = 0 := by
      rw [fetch_ok_nrows sq s1 t d hok hn]
      exact hn
    simp [processTicker, hnz, mkAggRow]
  · intro csvCols col h
    rw [main_state_eq sq s1 csvCols col h]

/-- Witness for `c10_key_and_symbol`: the source `srcA` against itself
with ticker `AAA` and its one-row frame. -/
theorem c10_key_and_symbol_witness :
    (srcA ("AAA" ++ ".NS") = srcA ("AAA" ++ ".NS") ∧
     srcA ("AAA" ++ ".NS") = .ok dOne ∧ dOne.nrows ≠ 0 ∧
     "Ticker" ∈ ["Ticker"]) ∧
    (fetch_stock_data sqrtQ0 srcA "AAA" = fetch_stock_data sqrtQ0 srcA "AAA" ∧
     ((processTicker sqrtQ0 srcA initState "AAA").aggRows).map AggRow.ticker =
       initState.aggRows.map AggRow.ticker ++ ["AAA"] ∧
     (main sqrtQ0 srcA ["Ticker"] [some "AAA"]).state.queries =
       (processedTickers [some "AAA"]).map (fun u => u ++ ".NS")) := by
  have h := c10_key_and_symbol sqrtQ0 srcA srcA "AAA" rfl
  exact ⟨⟨rfl, rfl, by decide, by decide⟩,
    ⟨h.1, h.2.1 initState dOne rfl (by decide), h.2.2 ["Ticker"] [some "AAA"]
      (by decide)⟩⟩

end StocksChart
